import Mathlib

/-
Verification of the outbound-selection and provider-synchronization subsystem:
a shallow embedding of the Selector outbound group (Start, SelectOutbound,
UpdateOutbounds, filterOutbounds, outboundSelect) and of the file-backed
ProviderLocal constructor (NewProviderLocal, reloadFile), together with
theorems settling the specification claims about them.

Modelling conventions:
- Go maps keyed by strings are association lists; insertion conses a new
  binding and lookup takes the first match, which reproduces overwrite
  semantics (the code never ranges over a map, so iteration order is moot).
- A nil Go slice and an empty slice are identified (the per-provider cache is
  only ever built by appending to a nil slice, so `!= nil` is `≠ []`).
- Outbound and Provider interface values carry a numeric identity `oid`
  standing for the Go pointer, so value equality models reference equality.
- A nil-interface method call (nil provider, nil outbound) is a runtime
  panic, modelled by the distinguished exception `GoExc.nilPanic`.
- Side effects that the claims count (persisted-selection writes, interrupt
  signals) are returned in an explicit `Effects` record; which providers had
  `Outbounds()` called during a rebuild is recorded in `FilterResult.fetched`.
-/

/-- String-keyed Go map as an association list; newest binding first. -/
abbrev SMap (α : Type) := List (String × α)

def mapFind {α : Type} : SMap α → String → Option α
  | [], _ => none
  | (k2, v) :: rest, k => if k2 = k then some v else mapFind rest k

def mapInsert {α : Type} (m : SMap α) (k : String) (v : α) : SMap α :=
  (k, v) :: m

/-- An outbound handle: `oid` models the interface identity (Go pointer). -/
structure Outbound where
  oid : Nat
  tag : String
deriving DecidableEq, Repr

/-- A provider as seen by the Selector: its tag, current outbound list and
in-progress-update flag. -/
structure Provider where
  ptag : String
  outbounds : List Outbound
  isUpdating : Bool
deriving DecidableEq, Repr

/-- The ambient services a Selector operation reads: the outbound manager,
the provider manager's current provider list, and the optional persisted
selection store (`cacheFile`, tag to stored tag). -/
structure Env where
  outMgr : List Outbound
  mgrProviders : List Provider
  cacheFile : Option (SMap String)

/-- Outbound manager lookup (`s.outbound.Outbound(tag)`): outbounds are
registered under their own tag. -/
def lookupOutbound (mgr : List Outbound) (t : String) : Option Outbound :=
  mgr.find? (fun o => o.tag == t)

/-- Selector state (the struct fields of `Selector` that the claims touch). -/
structure Selector where
  selfTag : String
  dependencies : List String
  defaultTag : String
  includeP : Option (String → Bool)
  excludeP : Option (String → Bool)
  providerTags : List String
  useAllProviders : Bool
  tags : List String
  outbounds : SMap Outbound
  outboundsCache : SMap (List Outbound)
  providers : SMap (Option Provider)
  selected : Option Outbound

/-- Configuration options of a Selector (`option.SelectorOutboundOptions`);
the compiled include/exclude regexes are abstracted as match predicates. -/
structure SelectorOptions where
  outbounds : List String
  default : String
  includeP : Option (String → Bool)
  excludeP : Option (String → Bool)
  providers : List String
  useAllProviders : Bool

/-- Constructor `NewSelector`: initial state (maps empty, `tags` seeded with the
static outbound tags, nothing selected). -/
def NewSelector (tag : String) (o : SelectorOptions) : Selector :=
  { selfTag := tag
    dependencies := o.outbounds
    defaultTag := o.default
    includeP := o.includeP
    excludeP := o.excludeP
    providerTags := o.providers
    useAllProviders := o.useAllProviders
    tags := o.outbounds
    outbounds := []
    outboundsCache := []
    providers := []
    selected := none }

/-- Go-level failure: an error value, or a runtime panic from a
nil-interface dereference / out-of-range index. -/
inductive GoExc where
  | goErr (msg : String)
  | nilPanic
deriving DecidableEq, Repr

/-- Result of `filterOutbounds`: served tag list, tag-to-outbound map, the
updated per-provider cache, plus instrumentation: which providers had
`Outbounds()` called (`fetched`) and every provider-sourced outbound
appended to the candidate structures, in order (`emitted`). -/
structure FilterResult where
  tags : List String
  outboundByTag : SMap Outbound
  cache : SMap (List Outbound)
  fetched : List String
  emitted : List Outbound
deriving Repr

/-- Static seeding loop of `filterOutbounds`: resolve each dependency tag
through the outbound manager into the map; an unresolved tag is an error. -/
def seedStatic (mgr : List Outbound) (acc : SMap Outbound) :
    List String → Except GoExc (SMap Outbound)
  | [] => .ok acc
  | t :: rest =>
    match lookupOutbound mgr t with
    | none => .error (.goErr ("outbound not found: " ++ t))
    | some detour => seedStatic mgr (mapInsert acc t detour) rest

/-- Test `s.include != nil && !s.include.MatchString(tag)`. -/
def includeSkip (inc : Option (String → Bool)) (t : String) : Bool :=
  match inc with
  | some f => !(f t)
  | none => false

/-- Test `s.exclude != nil && s.exclude.MatchString(tag)`. -/
def excludeSkip (exc : Option (String → Bool)) (t : String) : Bool :=
  match exc with
  | some f => f t
  | none => false

/-- Inner per-provider loop of `filterOutbounds`: walk the provider's
outbounds, skip include-misses and exclude-hits, and append each survivor
to the tag list, the map and the fresh cache slice. -/
def filterLoop (inc exc : Option (String → Bool)) :
    List Outbound → List String → SMap Outbound → List Outbound →
    List String × SMap Outbound × List Outbound
  | [], tags, m, cache => (tags, m, cache)
  | detour :: rest, tags, m, cache =>
    if includeSkip inc detour.tag then
      filterLoop inc exc rest tags m cache
    else if excludeSkip exc detour.tag then
      filterLoop inc exc rest tags m cache
    else
      filterLoop inc exc rest (tags ++ [detour.tag])
        (mapInsert m detour.tag detour) (cache ++ [detour])

/-- The claim-side filter predicate: a tag survives when it matches the
include pattern (or none is configured) and does not match the exclude
pattern (or none is configured). -/
def keepTag (inc exc : Option (String → Bool)) (t : String) : Bool :=
  (match inc with | none => true | some f => f t) &&
    !(match exc with | none => false | some f => f t)

/-- Append a cached outbound list to the candidate map, in order. -/
def insertOutbounds (m : SMap Outbound) (ds : List Outbound) : SMap Outbound :=
  ds.foldl (fun m d => mapInsert m d.tag d) m

/-- Cache lookup `s.outboundsCache[providerTag]`: a missing key reads as the
nil slice, identified with `[]`. -/
def cacheGet (c : SMap (List Outbound)) (k : String) : List Outbound :=
  (mapFind c k).getD []

/-- Provider loop of `filterOutbounds`: for each bound provider tag, either
reuse a non-nil cache entry verbatim (when the tag is not the just-changed
one), or fetch the provider's outbounds, filter them and overwrite its cache
entry; a nil bound provider panics at the `Outbounds()` call. -/
def provPhase (s : Selector) (changed : String) :
    List String → FilterResult → Except GoExc FilterResult
  | [], acc => .ok acc
  | providerTag :: rest, acc =>
    if providerTag ≠ changed ∧ cacheGet acc.cache providerTag ≠ [] then
      let cached := cacheGet acc.cache providerTag
      provPhase s changed rest
        { acc with
          tags := acc.tags ++ cached.map (fun d => d.tag)
          outboundByTag := insertOutbounds acc.outboundByTag cached
          emitted := acc.emitted ++ cached }
    else
      match mapFind s.providers providerTag with
      | some (some provider) =>
        let r := filterLoop s.includeP s.excludeP provider.outbounds
          acc.tags acc.outboundByTag []
        provPhase s changed rest
          { tags := r.1
            outboundByTag := r.2.1
            cache := mapInsert acc.cache providerTag r.2.2
            fetched := acc.fetched ++ [providerTag]
            emitted := acc.emitted ++ r.2.2 }
      | some none => .error .nilPanic
      | none => .error .nilPanic

/-- Rebuild `filterOutbounds(tag)`: seed with static dependencies, require the
default tag among them, run the provider loop, and fall back to the
"Compatible" outbound when no candidate survived (panicking on
`detour.Tag()` if that tag is absent from the manager). -/
def filterOutbounds (env : Env) (s : Selector) (changed : String) :
    Except GoExc FilterResult :=
  match seedStatic env.outMgr [] s.dependencies with
  | .error e => .error e
  | .ok m0 =>
    if s.defaultTag ≠ "" ∧ mapFind m0 s.defaultTag = none then
      .error (.goErr ("default outbound not found: " ++ s.defaultTag))
    else
      match provPhase s changed s.providerTags
          { tags := s.dependencies
            outboundByTag := m0
            cache := s.outboundsCache
            fetched := []
            emitted := [] } with
      | .error e => .error e
      | .ok r =>
        if r.tags = [] then
          match lookupOutbound env.outMgr "Compatible" with
          | none => .error .nilPanic
          | some detour =>
            .ok { r with
                  tags := r.tags ++ [detour.tag]
                  outboundByTag := mapInsert r.outboundByTag detour.tag detour }
        else .ok r

/-- Lookup `cacheFile.LoadSelected`: empty string when nothing is stored. -/
def loadSelected (store : SMap String) (tag : String) : String :=
  (mapFind store tag).getD ""

/-- First tier of `outboundSelect`: the persisted choice, provided the
Selector is addressable, a store is present, the stored tag is non-empty
and it is still a key of the candidate map. -/
def storeSelection (env : Env) (s : Selector) : Option Outbound :=
  if s.selfTag ≠ "" then
    match env.cacheFile with
    | some store =>
      if loadSelected store s.selfTag ≠ "" then
        mapFind s.outbounds (loadSelected store s.selfTag)
      else none
    | none => none
  else none

/-- Resolution `outboundSelect`: persisted choice, else configured default (erroring if
absent from the map), else the map entry of the first served tag (`.ok none`
models the nil outbound a map miss yields; an empty tag list panics). -/
def outboundSelect (env : Env) (s : Selector) : Except GoExc (Option Outbound) :=
  match storeSelection env s with
  | some detour => .ok (some detour)
  | none =>
    if s.defaultTag ≠ "" then
      match mapFind s.outbounds s.defaultTag with
      | none => .error (.goErr ("default outbound not found: " ++ s.defaultTag))
      | some detour => .ok (some detour)
    else
      match s.tags with
      | [] => .error .nilPanic
      | t :: _ => .ok (mapFind s.outbounds t)

/-- Side effects a selection change performs: `StoreSelected` writes and
interrupt-group signals. -/
structure Effects where
  stores : List (String × String)
  interrupts : Nat
deriving DecidableEq, Repr

def noEffects : Effects := { stores := [], interrupts := 0 }

/-- Explicit selection `SelectOutbound(tag)`: false on a non-candidate; otherwise swap the
active reference — if it was already this outbound, return true with no
effects; else persist (when addressable and a store exists) and signal the
interrupt group once. -/
def SelectOutbound (env : Env) (s : Selector) (tag : String) :
    Bool × Selector × Effects :=
  match mapFind s.outbounds tag with
  | none => (false, s, noEffects)
  | some detour =>
    if s.selected = some detour then
      (true, { s with selected := some detour }, noEffects)
    else
      let storeEff : List (String × String) :=
        if s.selfTag ≠ "" then
          match env.cacheFile with
          | some _ => [(s.selfTag, tag)]
          | none => []
        else []
      (true, { s with selected := some detour },
        { stores := storeEff, interrupts := 1 })

/-- Tail of `UpdateOutbounds` after the candidate structures were replaced:
skip reselection when any other provider of the manager reports an update in
progress; otherwise resolve a selection (errors swallowed, a nil result
panics at `detour.Tag()`) and apply it through `SelectOutbound`. -/
def updateReselect (env : Env) (s : Selector) (tag : String) :
    Except GoExc (Selector × Effects) :=
  if env.mgrProviders.any (fun p => p.ptag != tag && p.isUpdating) then
    .ok (s, noEffects)
  else
    match outboundSelect env s with
    | .error .nilPanic => .error .nilPanic
    | .error (.goErr _) => .ok (s, noEffects)
    | .ok none => .error .nilPanic
    | .ok (some detour) =>
      let r := SelectOutbound env s detour.tag
      .ok (r.2.1, r.2.2)

/-- Reconciliation `UpdateOutbounds(tag)`: error when the tag is not a key of the bound
provider map; rebuild the candidate structures with the tag marked changed
(a rebuild error is discarded, leaving nil tags and map); then debounce and
reselect. -/
def UpdateOutbounds (env : Env) (s : Selector) (tag : String) :
    Except GoExc (Selector × Effects) :=
  match mapFind s.providers tag with
  | none => .error (.goErr ("outbound provider not found: " ++ tag))
  | some _ =>
    match filterOutbounds env s tag with
    | .error .nilPanic => .error .nilPanic
    | .error (.goErr _) =>
      updateReselect env { s with tags := [], outbounds := [] } tag
    | .ok r =>
      updateReselect env
        { s with
          tags := r.tags
          outbounds := r.outboundByTag
          outboundsCache := r.cache } tag

/-- Provider-binding phase of `Start`: bind every manager provider when
`useAllProviders`, else bind each configured tag to the manager's lookup
result — an unresolved tag constructs an error that is discarded, and the
nil lookup result is stored all the same. -/
def bindProviders (env : Env) (s : Selector) : Selector :=
  if s.useAllProviders then
    { s with
      providerTags := env.mgrProviders.map (fun p => p.ptag)
      providers := env.mgrProviders.foldl
        (fun m p => mapInsert m p.ptag (some p)) s.providers }
  else
    { s with
      providers := s.providerTags.foldl
        (fun m t => mapInsert m t (env.mgrProviders.find? (fun p => p.ptag == t)))
        s.providers }

/-- Startup `Start`: bind providers, require some outbound or provider tag, build
the initial candidate structures and resolve the initial selection. -/
def Start (env : Env) (s : Selector) : Except GoExc Selector :=
  let s0 := bindProviders env s
  if s0.tags.length + s0.providerTags.length = 0 then
    .error (.goErr "missing outbound and provider tags")
  else
    match filterOutbounds env s0 "" with
    | .error e => .error e
    | .ok r =>
      let s1 := { s0 with
                  tags := r.tags
                  outbounds := r.outboundByTag
                  outboundsCache := r.cache }
      match outboundSelect env s1 with
      | .error e => .error e
      | .ok od => .ok { s1 with selected := od }

/-- Environment of one `NewProviderLocal` run: outcome of the stat, read and
parse steps of the initial load at the resolved path, and of the watcher
construction. Parsed outbound options are abstracted as strings. -/
structure LocalEnv where
  statResult : Option Nat
  readResult : Except String String
  parseResult : String → Except String (List String)
  watcherResult : Except String Unit

/-- ProviderLocal state the claims touch: last parsed option list and the
last file-modification timestamp. -/
structure ProviderLocalState where
  lastOutOpts : List String
  lastUpdated : Nat
deriving DecidableEq, Repr

/-- Load `reloadFile`: a successful stat updates the timestamp (a failed stat is
ignored); then read and parse, either failure propagating; on success the
held option list is replaced. -/
def reloadFile (env : LocalEnv) (st : ProviderLocalState) :
    Except String ProviderLocalState :=
  let st1 := match env.statResult with
    | some t => { st with lastUpdated := t }
    | none => st
  match env.readResult with
  | .error e => .error e
  | .ok content =>
    match env.parseResult content with
    | .error e => .error e
    | .ok opts => .ok { st1 with lastOutOpts := opts }

/-- Constructor `NewProviderLocal`: require a tag and a path, perform the synchronous
initial load, then construct the watcher; any of these failing fails
construction. -/
def NewProviderLocal (env : LocalEnv) (tag path : String) :
    Except String ProviderLocalState :=
  if tag = "" then .error "provider tag is required"
  else if path = "" then .error "provider path is required"
  else
    match reloadFile env { lastOutOpts := [], lastUpdated := 0 } with
    | .error e => .error e
    | .ok st =>
      match env.watcherResult with
      | .error e => .error e
      | .ok _ => .ok st

/-! ## Helper lemmas about the map model -/

theorem mapFind_insert_self {α : Type} (m : SMap α) (k : String) (v : α) :
    mapFind (mapInsert m k v) k = some v := by
  simp [mapInsert, mapFind]

theorem mapFind_insert_of_ne {α : Type} (m : SMap α) {k' k : String} (v : α)
    (h : k' ≠ k) : mapFind (mapInsert m k' v) k = mapFind m k := by
  simp [mapInsert, mapFind, h]

theorem mapFind_mem {α : Type} : ∀ {m : SMap α} {k : String} {v : α},
    mapFind m k = some v → (k, v) ∈ m
  | [], _, _, h => by simp [mapFind] at h
  | (k2, v2) :: rest, k, v, h => by
    by_cases hk : k2 = k
    · subst hk
      simp [mapFind] at h
      subst h
      exact List.mem_cons_self _ _
    · simp [mapFind, hk] at h
      exact List.mem_cons_of_mem _ (mapFind_mem h)

theorem mapFind_insert_ne_none {α : Type} {m : SMap α} {k : String}
    (k' : String) (v : α) (h : mapFind m k ≠ none) :
    mapFind (mapInsert m k' v) k ≠ none := by
  by_cases hk : k' = k
  · subst hk; simp [mapFind_insert_self]
  · rw [mapFind_insert_of_ne _ _ hk]; exact h

theorem cacheGet_insert_self (c : SMap (List Outbound)) (k : String)
    (v : List Outbound) : cacheGet (mapInsert c k v) k = v := by
  simp [cacheGet, mapFind_insert_self]

theorem cacheGet_insert_of_ne (c : SMap (List Outbound)) {k' k : String}
    (v : List Outbound) (h : k' ≠ k) :
    cacheGet (mapInsert c k' v) k = cacheGet c k := by
  simp [cacheGet, mapFind_insert_of_ne _ _ h]

theorem mapFind_insertOutbounds_ne_none {k : String} :
    ∀ (ds : List Outbound) (m : SMap Outbound),
      mapFind m k ≠ none → mapFind (insertOutbounds m ds) k ≠ none
  | [], m, h => h
  | d :: rest, m, h =>
    mapFind_insertOutbounds_ne_none rest (mapInsert m d.tag d)
      (mapFind_insert_ne_none d.tag d h)

/-- Keys of the candidate map always equal the tag of the stored outbound. -/
def keyTag (m : SMap Outbound) : Prop :=
  ∀ k d, mapFind m k = some d → k = d.tag

theorem keyTag_nil : keyTag [] := by
  intro k d h
  simp [mapFind] at h

theorem keyTag_insert {m : SMap Outbound} (h : keyTag m) {k0 : String}
    {d : Outbound} (hv : k0 = d.tag) : keyTag (mapInsert m k0 d) := by
  intro k d2 hfind
  by_cases hk : k0 = k
  · subst hk
    rw [mapFind_insert_self] at hfind
    cases hfind
    exact hv
  · rw [mapFind_insert_of_ne _ _ hk] at hfind
    exact h k d2 hfind

theorem keyTag_insertOutbounds :
    ∀ (ds : List Outbound) {m : SMap Outbound}, keyTag m →
      keyTag (insertOutbounds m ds)
  | [], _, h => h
  | d :: rest, m, h =>
    keyTag_insertOutbounds rest (keyTag_insert h rfl)

/-! ## The per-provider filter loop -/

theorem keepTag_eq (inc exc : Option (String → Bool)) (t : String) :
    keepTag inc exc t = (!includeSkip inc t && !excludeSkip exc t) := by
  cases inc <;> cases exc <;> simp [keepTag, includeSkip, excludeSkip]

/-- The survivors of one provider fetch, as the claim states them. -/
def survivors (inc exc : Option (String → Bool)) (ds : List Outbound) :
    List Outbound :=
  ds.filter (fun d => keepTag inc exc d.tag)

theorem filterLoop_eq (inc exc : Option (String → Bool)) :
    ∀ (ds : List Outbound) (tags : List String) (m : SMap Outbound)
      (cache : List Outbound),
      filterLoop inc exc ds tags m cache =
        (tags ++ (survivors inc exc ds).map (fun d => d.tag),
         insertOutbounds m (survivors inc exc ds),
         cache ++ survivors inc exc ds)
  | [], tags, m, cache => by simp [filterLoop, survivors, insertOutbounds]
  | d :: rest, tags, m, cache => by
    have hrec := filterLoop_eq inc exc rest
    by_cases h1 : includeSkip inc d.tag
    · have hk : keepTag inc exc d.tag = false := by
        rw [keepTag_eq, h1]; simp
      simp [filterLoop, h1, survivors, List.filter_cons, hk] at *
      exact hrec tags m cache
    · by_cases h2 : excludeSkip exc d.tag
      · have hk : keepTag inc exc d.tag = false := by
          rw [keepTag_eq, h2]; simp
        simp [filterLoop, h1, h2, survivors, List.filter_cons, hk] at *
        exact hrec tags m cache
      · have hk : keepTag inc exc d.tag = true := by
          rw [keepTag_eq]
          simp [h1, h2]
        simp only [filterLoop, h1, h2, if_false, if_true, Bool.false_eq_true,
          ite_false]
        rw [hrec]
        simp [survivors, List.filter_cons, hk, insertOutbounds]

/-! ## Lemmas about the provider loop -/

theorem exists_append_of_append {α : Type} {r a : List α} (X e : List α)
    (h : r = a ++ X ++ e) : ∃ e2, r = a ++ e2 :=
  ⟨X ++ e, by rw [h, List.append_assoc]⟩

theorem provPhase_extends (s : Selector) (changed : String) (ps : List String) :
    ∀ (acc r : FilterResult), provPhase s changed ps acc = .ok r →
      (∃ e, r.tags = acc.tags ++ e) ∧ (∃ e, r.emitted = acc.emitted ++ e) ∧
      (∃ e, r.fetched = acc.fetched ++ e) ∧
      (∀ k, mapFind acc.outboundByTag k ≠ none →
        mapFind r.outboundByTag k ≠ none) := by
  induction ps with
  | nil =>
    intro acc r h
    simp only [provPhase, Except.ok.injEq] at h
    subst h
    exact ⟨⟨[], by simp⟩, ⟨[], by simp⟩, ⟨[], by simp⟩, fun k hk => hk⟩
  | cons p rest ih =>
    intro acc r h
    simp only [provPhase] at h
    split at h
    · obtain ⟨⟨e1, he1⟩, ⟨e2, he2⟩, ⟨e3, he3⟩, hm⟩ := ih _ _ h
      simp only at he1 he2 he3 hm
      refine ⟨exists_append_of_append _ _ he1, exists_append_of_append _ _ he2,
        ⟨e3, he3⟩, ?_⟩
      intro k hk
      exact hm k (mapFind_insertOutbounds_ne_none _ _ hk)
    · split at h
      · simp only [filterLoop_eq] at h
        obtain ⟨⟨e1, he1⟩, ⟨e2, he2⟩, ⟨e3, he3⟩, hm⟩ := ih _ _ h
        simp only at he1 he2 he3 hm
        refine ⟨exists_append_of_append _ _ he1, exists_append_of_append _ _ he2,
          exists_append_of_append _ _ he3, ?_⟩
        intro k hk
        exact hm k (mapFind_insertOutbounds_ne_none _ _ hk)
      · simp at h
      · simp at h

theorem provPhase_stable (s : Selector) (changed p : String)
    (hpne : p ≠ changed) (ps : List String) :
    ∀ (acc r : FilterResult), provPhase s changed ps acc = .ok r →
      cacheGet acc.cache p ≠ [] →
      cacheGet r.cache p = cacheGet acc.cache p ∧
        (p ∉ acc.fetched → p ∉ r.fetched) := by
  induction ps with
  | nil =>
    intro acc r h hc
    simp only [provPhase, Except.ok.injEq] at h
    subst h
    exact ⟨rfl, fun hn => hn⟩
  | cons q rest ih =>
    intro acc r h hc
    simp only [provPhase] at h
    split at h
    · have hres := ih _ _ h hc
      exact hres
    · rename_i hcond
      split at h
      · rename_i provider heq
        have hqp : q ≠ p := by
          intro hqq
          subst hqq
          exact hcond ⟨hpne, hc⟩
        have hc2 : cacheGet (mapInsert acc.cache q
            (filterLoop s.includeP s.excludeP provider.outbounds
              acc.tags acc.outboundByTag []).2.2) p ≠ [] := by
          rw [cacheGet_insert_of_ne _ _ hqp]
          exact hc
        obtain ⟨hcache, hfetch⟩ := ih _ _ h hc2
        constructor
        · rw [hcache, cacheGet_insert_of_ne _ _ hqp]
        · intro hp
          apply hfetch
          intro hmem
          rcases List.mem_append.mp hmem with hmem1 | hmem2
          · exact hp hmem1
          · exact hqp (List.mem_singleton.mp hmem2).symm
      · simp at h
      · simp at h

theorem provPhase_cache_untouched (s : Selector) (changed p : String)
    (ps : List String) :
    ∀ (acc r : FilterResult), provPhase s changed ps acc = .ok r → p ∉ ps →
      cacheGet r.cache p = cacheGet acc.cache p := by
  induction ps with
  | nil =>
    intro acc r h _
    simp only [provPhase, Except.ok.injEq] at h
    subst h
    rfl
  | cons q rest ih =>
    intro acc r h hp
    have hqp : q ≠ p := fun hh => hp (hh ▸ List.mem_cons_self q rest)
    have hp' : p ∉ rest := fun hh => hp (List.mem_cons_of_mem _ hh)
    simp only [provPhase] at h
    split at h
    · have hres := ih _ _ h hp'
      exact hres
    · split at h
      · rw [ih _ _ h hp', cacheGet_insert_of_ne _ _ hqp]
      · simp at h
      · simp at h

theorem provPhase_serves (s : Selector) (changed p : String)
    (hpne : p ≠ changed) (ps : List String) :
    ∀ (acc r : FilterResult), provPhase s changed ps acc = .ok r → p ∈ ps →
      cacheGet acc.cache p ≠ [] →
      ∃ pre suf, r.emitted = pre ++ cacheGet acc.cache p ++ suf := by
  induction ps with
  | nil =>
    intro acc r _ hp _
    exact absurd hp (List.not_mem_nil p)
  | cons q rest ih =>
    intro acc r h hp hc
    by_cases hqp : q = p
    · subst hqp
      simp only [provPhase] at h
      rw [if_pos ⟨hpne, hc⟩] at h
      obtain ⟨_, ⟨e2, he2⟩, _, _⟩ := provPhase_extends s changed rest _ _ h
      simp only at he2
      exact ⟨acc.emitted, e2, he2⟩
    · have hp' : p ∈ rest := by
        rcases List.mem_cons.mp hp with hh | hh
        · exact absurd hh.symm hqp
        · exact hh
      simp only [provPhase] at h
      split at h
      · have hres := ih _ _ h hp' hc
        exact hres
      · split at h
        · rename_i provider heq
          have hc2 : cacheGet (mapInsert acc.cache q
              (filterLoop s.includeP s.excludeP provider.outbounds
                acc.tags acc.outboundByTag []).2.2) p ≠ [] := by
            rw [cacheGet_insert_of_ne _ _ hqp]
            exact hc
          obtain ⟨pre, suf, hps⟩ := ih _ _ h hp' hc2
          rw [cacheGet_insert_of_ne _ _ hqp] at hps
          exact ⟨pre, suf, hps⟩
        · simp at h
        · simp at h

theorem provPhase_changed_fetch (s : Selector) (changed : String)
    (ps : List String) :
    ∀ (acc r : FilterResult), provPhase s changed ps acc = .ok r →
      changed ∈ ps →
      changed ∈ r.fetched ∧
        ∃ prov, mapFind s.providers changed = some (some prov) ∧
          cacheGet r.cache changed =
            survivors s.includeP s.excludeP prov.outbounds := by
  induction ps with
  | nil =>
    intro acc r _ hp
    exact absurd hp (List.not_mem_nil changed)
  | cons q rest ih =>
    intro acc r h hp
    by_cases hrest : changed ∈ rest
    · simp only [provPhase] at h
      split at h
      · have hres := ih _ _ h hrest
        exact hres
      · split at h
        · have hres := ih _ _ h hrest
          exact hres
        · simp at h
        · simp at h
    · have hq : q = changed := by
        rcases List.mem_cons.mp hp with hh | hh
        · exact hh.symm
        · exact absurd hh hrest
      subst hq
      simp only [provPhase] at h
      rw [if_neg (fun hcond => hcond.1 rfl)] at h
      split at h
      · rename_i provider heq
        simp only [filterLoop_eq] at h
        have hcu := provPhase_cache_untouched s q q rest _ _ h hrest
        obtain ⟨_, _, ⟨e3, he3⟩, _⟩ := provPhase_extends s q rest _ _ h
        simp only at he3 hcu
        constructor
        · rw [he3]
          simp
        · refine ⟨provider, heq, ?_⟩
          rw [hcu, cacheGet_insert_self]
          simp
      · simp at h
      · simp at h

theorem provPhase_fetch_of_nilCache (s : Selector) (changed p : String)
    (ps : List String) :
    ∀ (acc r : FilterResult), provPhase s changed ps acc = .ok r → p ∈ ps →
      cacheGet acc.cache p = [] → p ∈ r.fetched := by
  induction ps with
  | nil =>
    intro acc r _ hp _
    exact absurd hp (List.not_mem_nil p)
  | cons q rest ih =>
    intro acc r h hp hc
    by_cases hqp : q = p
    · subst hqp
      simp only [provPhase] at h
      rw [if_neg (fun hcond => hcond.2 hc)] at h
      split at h
      · obtain ⟨_, _, ⟨e3, he3⟩, _⟩ := provPhase_extends s changed rest _ _ h
        simp only at he3
        rw [he3]
        simp
      · simp at h
      · simp at h
    · have hp' : p ∈ rest := by
        rcases List.mem_cons.mp hp with hh | hh
        · exact absurd hh.symm hqp
        · exact hh
      simp only [provPhase] at h
      split at h
      · have hres := ih _ _ h hp' hc
        exact hres
      · split at h
        · apply ih _ _ h hp'
          rw [cacheGet_insert_of_ne _ _ hqp]
          exact hc
        · simp at h
        · simp at h

theorem provPhase_nilCache_stays (s : Selector) (changed p : String)
    (prov : Provider) (hprov : mapFind s.providers p = some (some prov))
    (hsurv : survivors s.includeP s.excludeP prov.outbounds = [])
    (ps : List String) :
    ∀ (acc r : FilterResult), provPhase s changed ps acc = .ok r →
      cacheGet acc.cache p = [] → cacheGet r.cache p = [] := by
  induction ps with
  | nil =>
    intro acc r h hc
    simp only [provPhase, Except.ok.injEq] at h
    subst h
    exact hc
  | cons q rest ih =>
    intro acc r h hc
    by_cases hqp : q = p
    · subst hqp
      simp only [provPhase] at h
      rw [if_neg (fun hcond => hcond.2 hc)] at h
      split at h
      · rename_i provider heq
        rw [hprov] at heq
        cases heq
        simp only [filterLoop_eq, hsurv] at h
        apply ih _ _ h
        rw [cacheGet_insert_self]
        rfl
      · simp at h
      · simp at h
    · simp only [provPhase] at h
      split at h
      · have hres := ih _ _ h hc
        exact hres
      · split at h
        · apply ih _ _ h
          rw [cacheGet_insert_of_ne _ _ hqp]
          exact hc
        · simp at h
        · simp at h

theorem provPhase_zero (s : Selector) (changed : String) (ps : List String) :
    ∀ acc : FilterResult,
      (∀ q ∈ ps, cacheGet acc.cache q = [] ∧
        ∃ prov, mapFind s.providers q = some (some prov) ∧
          survivors s.includeP s.excludeP prov.outbounds = []) →
      ∃ r, provPhase s changed ps acc = .ok r ∧ r.tags = acc.tags ∧
        r.outboundByTag = acc.outboundByTag := by
  induction ps with
  | nil =>
    intro acc _
    exact ⟨acc, rfl, rfl, rfl⟩
  | cons q rest ih =>
    intro acc H
    obtain ⟨hc, prov, hprov, hsurv⟩ := H q (List.mem_cons_self q rest)
    simp only [provPhase]
    rw [if_neg (fun hcond => hcond.2 hc)]
    split
    · rename_i provider heq
      rw [hprov] at heq
      have hpe : provider = prov := by
        simpa using heq.symm
      subst hpe
      simp only [filterLoop_eq, hsurv, List.map_nil, List.append_nil,
        List.nil_append, insertOutbounds, List.foldl_nil]
      have H2 : ∀ q2 ∈ rest,
          cacheGet (mapInsert acc.cache q []) q2 = [] ∧
          ∃ prov2, mapFind s.providers q2 = some (some prov2) ∧
            survivors s.includeP s.excludeP prov2.outbounds = [] := by
        intro q2 hq2
        obtain ⟨hc2, prov2, hprov2, hsurv2⟩ := H q2 (List.mem_cons_of_mem _ hq2)
        refine ⟨?_, prov2, hprov2, hsurv2⟩
        by_cases hqq : q = q2
        · subst hqq
          rw [cacheGet_insert_self]
        · rw [cacheGet_insert_of_ne _ _ hqq]
          exact hc2
      obtain ⟨r, hr, ht, hm⟩ :=
        ih ⟨acc.tags, acc.outboundByTag, mapInsert acc.cache q [],
            acc.fetched ++ [q], acc.emitted⟩
          (fun q2 hq2 => H2 q2 hq2)
      exact ⟨r, hr, ht, hm⟩
    · rename_i heq
      rw [hprov] at heq
      simp at heq
    · rename_i heq
      rw [hprov] at heq
      simp at heq

theorem provPhase_nilProvider (s : Selector) (changed t : String)
    (hnil : ∀ prov, mapFind s.providers t ≠ some (some prov)) (ps : List String) :
    ∀ acc : FilterResult, t ∈ ps → cacheGet acc.cache t = [] →
      provPhase s changed ps acc = .error .nilPanic := by
  induction ps with
  | nil =>
    intro acc hmem _
    exact absurd hmem (List.not_mem_nil t)
  | cons q rest ih =>
    intro acc hmem hc
    by_cases hqt : q = t
    · subst hqt
      simp only [provPhase]
      rw [if_neg (fun hcond => hcond.2 hc)]
      split
      · rename_i provider heq
        exact absurd heq (hnil provider)
      · rfl
      · rfl
    · have hmem' : t ∈ rest := by
        rcases List.mem_cons.mp hmem with hh | hh
        · exact absurd hh.symm hqt
        · exact hh
      simp only [provPhase]
      split
      · exact ih _ hmem' hc
      · split
        · apply ih
          · exact hmem'
          · rw [cacheGet_insert_of_ne _ _ hqt]
            exact hc
        · rfl
        · rfl

theorem provPhase_keyTag (s : Selector) (changed : String) (ps : List String) :
    ∀ (acc r : FilterResult), provPhase s changed ps acc = .ok r →
      keyTag acc.outboundByTag → keyTag r.outboundByTag := by
  induction ps with
  | nil =>
    intro acc r h hkt
    simp only [provPhase, Except.ok.injEq] at h
    subst h
    exact hkt
  | cons q rest ih =>
    intro acc r h hkt
    simp only [provPhase] at h
    split at h
    · have hres := ih _ _ h (keyTag_insertOutbounds _ hkt)
      exact hres
    · split at h
      · simp only [filterLoop_eq] at h
        have hres := ih _ _ h (keyTag_insertOutbounds _ hkt)
        exact hres
      · simp at h
      · simp at h

/-! ## Lemmas about filterOutbounds and outboundSelect -/

theorem lookupOutbound_tag {mgr : List Outbound} {t : String} {o : Outbound}
    (h : lookupOutbound mgr t = some o) : o.tag = t := by
  have hp := List.find?_some h
  simpa using hp

theorem seedStatic_keyTag (mgr : List Outbound) :
    ∀ (l : List String) (acc : SMap Outbound) (m : SMap Outbound),
      keyTag acc → seedStatic mgr acc l = .ok m → keyTag m
  | [], acc, m, hkt, h => by
    simp only [seedStatic, Except.ok.injEq] at h
    subst h
    exact hkt
  | t :: rest, acc, m, hkt, h => by
    simp only [seedStatic] at h
    split at h
    · simp at h
    · rename_i detour hfind
      exact seedStatic_keyTag mgr rest _ m
        (keyTag_insert hkt (lookupOutbound_tag hfind).symm) h

/-- Inversion of a successful `filterOutbounds` run into its phases. -/
theorem filterOutbounds_ok_inv (env : Env) (s : Selector) (changed : String)
    (r : FilterResult) (h : filterOutbounds env s changed = .ok r) :
    ∃ m0 r0, seedStatic env.outMgr [] s.dependencies = .ok m0 ∧
      ¬(s.defaultTag ≠ "" ∧ mapFind m0 s.defaultTag = none) ∧
      provPhase s changed s.providerTags
        ⟨s.dependencies, m0, s.outboundsCache, [], []⟩ = .ok r0 ∧
      ((r0.tags ≠ [] ∧ r = r0) ∨
       (r0.tags = [] ∧ ∃ detour,
         lookupOutbound env.outMgr "Compatible" = some detour ∧
         r = { r0 with
               tags := r0.tags ++ [detour.tag]
               outboundByTag :=
                 mapInsert r0.outboundByTag detour.tag detour })) := by
  unfold filterOutbounds at h
  split at h
  · simp at h
  · rename_i m0 hseed
    split at h
    · simp at h
    · rename_i hguard
      split at h
      · simp at h
      · rename_i r0 hphase
        split at h
        · rename_i htags
          split at h
          · simp at h
          · rename_i detour hcompat
            simp only [Except.ok.injEq] at h
            exact ⟨m0, r0, hseed, hguard, hphase,
              Or.inr ⟨htags, detour, hcompat, h.symm⟩⟩
        · rename_i htags
          simp only [Except.ok.injEq] at h
          exact ⟨m0, r0, hseed, hguard, hphase, Or.inl ⟨htags, h.symm⟩⟩

theorem filterOutbounds_keyTag (env : Env) (s : Selector) (changed : String)
    (r : FilterResult) (h : filterOutbounds env s changed = .ok r) :
    keyTag r.outboundByTag := by
  obtain ⟨m0, r0, hseed, _, hphase, hcases⟩ :=
    filterOutbounds_ok_inv env s changed r h
  have hm0 : keyTag m0 := seedStatic_keyTag env.outMgr _ _ _ keyTag_nil hseed
  have hr0 : keyTag r0.outboundByTag := provPhase_keyTag s changed _ _ _ hphase hm0
  rcases hcases with ⟨_, rfl⟩ | ⟨_, detour, _, rfl⟩
  · exact hr0
  · show keyTag (mapInsert r0.outboundByTag detour.tag detour)
    exact keyTag_insert hr0 rfl

theorem filterOutbounds_default_kept (env : Env) (s : Selector)
    (changed : String) (r : FilterResult)
    (h : filterOutbounds env s changed = .ok r) (hdef : s.defaultTag ≠ "") :
    mapFind r.outboundByTag s.defaultTag ≠ none := by
  obtain ⟨m0, r0, hseed, hguard, hphase, hcases⟩ :=
    filterOutbounds_ok_inv env s changed r h
  have hm0 : mapFind m0 s.defaultTag ≠ none := by
    intro hnone
    exact hguard ⟨hdef, hnone⟩
  obtain ⟨_, _, _, hmap⟩ := provPhase_extends s changed s.providerTags _ _ hphase
  have hr0 := hmap s.defaultTag hm0
  rcases hcases with ⟨_, rfl⟩ | ⟨_, detour, _, rfl⟩
  · exact hr0
  · show mapFind (mapInsert r0.outboundByTag detour.tag detour) s.defaultTag ≠ none
    exact mapFind_insert_ne_none _ _ hr0

theorem storeSelection_mem (env : Env) (s : Selector) (d : Outbound)
    (h : storeSelection env s = some d) :
    ∃ k, mapFind s.outbounds k = some d := by
  unfold storeSelection at h
  split at h
  · split at h
    · split at h
      · exact ⟨_, h⟩
      · simp at h
    · simp at h
  · simp at h

theorem outboundSelect_mem (env : Env) (s : Selector) (d : Outbound)
    (h : outboundSelect env s = .ok (some d)) :
    ∃ k, mapFind s.outbounds k = some d := by
  unfold outboundSelect at h
  split at h
  · rename_i detour hss
    simp only [Except.ok.injEq, Option.some.injEq] at h
    subst h
    exact storeSelection_mem env s _ hss
  · split at h
    · split at h
      · simp at h
      · rename_i detour hfind
        simp only [Except.ok.injEq, Option.some.injEq] at h
        subst h
        exact ⟨_, hfind⟩
    · split at h
      · simp at h
      · simp only [Except.ok.injEq] at h
        exact ⟨_, h⟩

theorem SelectOutbound_found (env : Env) (s : Selector) (tag : String)
    (detour : Outbound) (h : mapFind s.outbounds tag = some detour) :
    ∃ eff, SelectOutbound env s tag =
      (true, { s with selected := some detour }, eff) := by
  by_cases hsel : s.selected = some detour
  · refine ⟨noEffects, ?_⟩
    simp only [SelectOutbound, h]
    rw [if_pos hsel]
  · exact ⟨_, by simp only [SelectOutbound, h]; rw [if_neg hsel]⟩

/-! ## Lemmas about the provider-binding fold of Start -/

theorem foldBind_untouched (f : String → Option Provider) (t : String) :
    ∀ (l : List String) (m : SMap (Option Provider)), t ∉ l →
      mapFind (l.foldl (fun m q => mapInsert m q (f q)) m) t = mapFind m t := by
  intro l
  induction l with
  | nil => intro m _; rfl
  | cons q rest ih =>
    intro m hm
    have hqt : q ≠ t := fun hh => hm (hh ▸ List.mem_cons_self q rest)
    have ht : t ∉ rest := fun hh => hm (List.mem_cons_of_mem _ hh)
    simp only [List.foldl_cons]
    rw [ih _ ht, mapFind_insert_of_ne _ _ hqt]

theorem foldBind_find (f : String → Option Provider) (t : String) :
    ∀ (l : List String) (m : SMap (Option Provider)), t ∈ l →
      mapFind (l.foldl (fun m q => mapInsert m q (f q)) m) t = some (f t) := by
  intro l
  induction l with
  | nil => intro m hm; exact absurd hm (List.not_mem_nil t)
  | cons q rest ih =>
    intro m hmem
    by_cases hrest : t ∈ rest
    · simp only [List.foldl_cons]
      exact ih _ hrest
    · have hqt : q = t := by
        rcases List.mem_cons.mp hmem with hh | hh
        · exact hh.symm
        · exact absurd hh hrest
      subst hqt
      simp only [List.foldl_cons]
      rw [foldBind_untouched f q rest _ hrest, mapFind_insert_self]

/-! ## Concrete fixtures used by witnesses and counterexamples -/

def oA : Outbound := ⟨1, "a"⟩
def oB : Outbound := ⟨2, "b"⟩
def oX : Outbound := ⟨3, "x"⟩
def oY : Outbound := ⟨4, "y"⟩
def oZ : Outbound := ⟨5, "z"⟩
def oCompat : Outbound := ⟨9, "Compatible"⟩

/-- Provider "A", currently reporting an in-progress update. -/
def provAupd : Provider := ⟨"A", [oX], true⟩

/-- Provider "B", idle, now serving the outbound `oZ`. -/
def provB : Provider := ⟨"B", [oZ], false⟩

/-- Provider "E", idle, currently serving zero outbounds. -/
def provE : Provider := ⟨"E", [], false⟩

/-- A started Selector bound to providers "A" and "B"; its cache still holds
the previously fetched lists ("A" served `oX`, "B" served `oY`) and `oY` is
the active selection. -/
def sW3 : Selector :=
  { selfTag := ""
    dependencies := []
    defaultTag := ""
    includeP := none
    excludeP := none
    providerTags := ["A", "B"]
    useAllProviders := false
    tags := ["x", "y"]
    outbounds := [("x", oX), ("y", oY)]
    outboundsCache := [("A", [oX]), ("B", [oY])]
    providers := [("A", some provAupd), ("B", some provB)]
    selected := some oY }

def envW3 : Env :=
  { outMgr := []
    mgrProviders := [provAupd, provB]
    cacheFile := none }

/-- The rebuild of `sW3` with "B" marked changed: "A" is served from cache,
"B" is re-fetched and now contributes `oZ`. -/
def rW3 : FilterResult :=
  { tags := ["x", "z"]
    outboundByTag := [("z", oZ), ("x", oX)]
    cache := [("B", [oZ]), ("A", [oX]), ("B", [oY])]
    fetched := ["B"]
    emitted := [oX, oZ] }

/-- State of `sW3` after `UpdateOutbounds("B")` under the debounce: candidate
structures replaced, selection untouched. -/
def sW3x : Selector :=
  { sW3 with
    tags := rW3.tags
    outbounds := rW3.outboundByTag
    outboundsCache := rW3.cache }

def optsW : SelectorOptions :=
  { outbounds := ["a", "b"]
    default := ""
    includeP := none
    excludeP := none
    providers := []
    useAllProviders := false }

def envW2 : Env :=
  { outMgr := [oA, oB]
    mgrProviders := []
    cacheFile := some [("sel", "a")] }

/-- A started static Selector over tags "a"/"b" with default "b" and a
persisted choice "a". -/
def sW2 : Selector :=
  { selfTag := "sel"
    dependencies := ["a", "b"]
    defaultTag := "b"
    includeP := none
    excludeP := none
    providerTags := []
    useAllProviders := false
    tags := ["a", "b"]
    outbounds := [("a", oA), ("b", oB)]
    outboundsCache := []
    providers := []
    selected := none }

/-- The state `Start envW2 (NewSelector "sel" optsW)` produces. -/
def sStarted : Selector :=
  { selfTag := "sel"
    dependencies := ["a", "b"]
    defaultTag := ""
    includeP := none
    excludeP := none
    providerTags := []
    useAllProviders := false
    tags := ["a", "b"]
    outbounds := [("b", oB), ("a", oA)]
    outboundsCache := []
    providers := []
    selected := some oA }

def sW5 : Selector :=
  { selfTag := "sel"
    dependencies := ["y"]
    defaultTag := ""
    includeP := none
    excludeP := none
    providerTags := []
    useAllProviders := false
    tags := ["y"]
    outbounds := [("y", oY)]
    outboundsCache := []
    providers := []
    selected := none }

def envW5 : Env :=
  { outMgr := [oY]
    mgrProviders := []
    cacheFile := some [] }

def sW9 : Selector :=
  { selfTag := ""
    dependencies := []
    defaultTag := ""
    includeP := none
    excludeP := none
    providerTags := ["E"]
    useAllProviders := false
    tags := []
    outbounds := []
    outboundsCache := []
    providers := [("E", some provE)]
    selected := none }

def envW9 : Env :=
  { outMgr := [oCompat]
    mgrProviders := [provE]
    cacheFile := none }

/-- The rebuild of `sW9`: provider "E" fetched, zero survivors, Compatible
fallback. -/
def rW9 : FilterResult :=
  { tags := ["Compatible"]
    outboundByTag := [("Compatible", oCompat)]
    cache := [("E", [])]
    fetched := ["E"]
    emitted := [] }

def optsC7 : SelectorOptions :=
  { outbounds := []
    default := ""
    includeP := none
    excludeP := none
    providers := ["P"]
    useAllProviders := false }

def envC7 : Env :=
  { outMgr := []
    mgrProviders := []
    cacheFile := none }

/-- A ProviderLocal environment where the stat step fails but read, parse
and watcher construction all succeed. -/
def localEnvStat : LocalEnv :=
  { statResult := none
    readResult := .ok "content"
    parseResult := fun _ => .ok ["o1"]
    watcherResult := .ok () }

theorem outboundSelect_goErr_inv (env : Env) (s : Selector) (msg : String)
    (h : outboundSelect env s = .error (.goErr msg)) :
    s.defaultTag ≠ "" ∧ mapFind s.outbounds s.defaultTag = none := by
  unfold outboundSelect at h
  split at h
  · simp at h
  · split at h
    · rename_i hdef
      split at h
      · rename_i hnone
        exact ⟨hdef, hnone⟩
      · simp at h
    · split at h
      · simp at h
      · simp at h

/-- Membership of an outbound value in a candidate map. -/
def inCandidates (m : SMap Outbound) (d : Outbound) : Prop :=
  ∃ k, mapFind m k = some d

/-- The spec invariant: the active selection, once set, is a member of the
current candidate map. -/
def selectionInv (s : Selector) : Prop :=
  ∀ d, s.selected = some d → inCandidates s.outbounds d

/-! ## Claim theorems -/

/-- C6: for every include/exclude pattern configuration and provider
outbound list, the innermost loop of `filterOutbounds` keeps exactly the
outbounds whose tag matches the include pattern (or none is configured) and
does not match the exclude pattern (or none is configured), in provider
order: the surviving list is `List.filter` by that predicate, and the tag
list extends by the survivors' tags in the same order. -/
theorem filterOutbounds_pattern_semantics
    (inc exc : Option (String → Bool)) (ds : List Outbound)
    (tags : List String) (m : SMap Outbound) (cache : List Outbound) :
    filterLoop inc exc ds tags m cache =
      (tags ++ (ds.filter (fun d => keepTag inc exc d.tag)).map (fun d => d.tag),
       insertOutbounds m (ds.filter (fun d => keepTag inc exc d.tag)),
       cache ++ ds.filter (fun d => keepTag inc exc d.tag)) :=
  filterLoop_eq inc exc ds tags m cache

/-- C2: `outboundSelect` resolves in strict priority order. (1) If the
Selector is addressable and the persisted store holds a non-empty choice S
that is a key of the candidate map, it returns S's outbound regardless of
any configured default. Otherwise (2) a configured default returns its map
entry, (3) erroring when the default is absent from the map, and (4) with no
default it returns the map entry of the first candidate tag. -/
theorem outboundSelect_priority_order (env : Env) (s : Selector) :
    (∀ store S d, s.selfTag ≠ "" → env.cacheFile = some store →
      loadSelected store s.selfTag = S → S ≠ "" →
      mapFind s.outbounds S = some d →
      outboundSelect env s = .ok (some d)) ∧
    (∀ d, storeSelection env s = none → s.defaultTag ≠ "" →
      mapFind s.outbounds s.defaultTag = some d →
      outboundSelect env s = .ok (some d)) ∧
    (storeSelection env s = none → s.defaultTag ≠ "" →
      mapFind s.outbounds s.defaultTag = none →
      outboundSelect env s =
        .error (.goErr ("default outbound not found: " ++ s.defaultTag))) ∧
    (∀ t rest d, storeSelection env s = none → s.defaultTag = "" →
      s.tags = t :: rest → mapFind s.outbounds t = some d →
      outboundSelect env s = .ok (some d)) := by
  refine ⟨?_, ?_, ?_, ?_⟩
  · intro store S d haddr hcf hS hne hd
    have hss : storeSelection env s = some d := by
      simp [storeSelection, haddr, hcf, hS, hne, hd]
    simp [outboundSelect, hss]
  · intro d hss hdef hfind
    simp [outboundSelect, hss, hdef, hfind]
  · intro hss hdef hnone
    simp [outboundSelect, hss, hdef, hnone]
  · intro t rest d hss hdef htags hfind
    simp [outboundSelect, hss, hdef, htags, hfind]

/-- C2 witness: with persisted choice "a" present and default "b"
configured, the persisted choice wins. -/
theorem outboundSelect_priority_order_wit :
    outboundSelect envW2 sW2 = .ok (some oA) :=
  (outboundSelect_priority_order envW2 sW2).1 [("sel", "a")] "a" oA
    (by decide) rfl rfl (by decide) rfl

/-- C5: `SelectOutbound` is idempotent. With `tag` a candidate whose
outbound is not currently selected, an addressable Selector and a present
store, the first call returns true, swaps the selection, performs exactly
one persistence write and one interrupt signal; the immediately following
call with the same tag returns true and performs no side effects and no
state change. -/
theorem selectOutbound_idempotent (env : Env) (s : Selector) (tag : String)
    (d : Outbound) (store : SMap String)
    (hmem : mapFind s.outbounds tag = some d)
    (hsel : s.selected ≠ some d)
    (haddr : s.selfTag ≠ "")
    (hcf : env.cacheFile = some store) :
    SelectOutbound env s tag =
      (true, { s with selected := some d },
        { stores := [(s.selfTag, tag)], interrupts := 1 }) ∧
    SelectOutbound env { s with selected := some d } tag =
      (true, { s with selected := some d }, noEffects) := by
  constructor
  · simp [SelectOutbound, hmem, hsel, haddr, hcf]
  · simp [SelectOutbound, hmem]

/-- C5 witness at a concrete Selector and store. -/
theorem selectOutbound_idempotent_wit :
    SelectOutbound envW5 sW5 "y" =
      (true, { sW5 with selected := some oY },
        { stores := [("sel", "y")], interrupts := 1 }) ∧
    SelectOutbound envW5 { sW5 with selected := some oY } "y" =
      (true, { sW5 with selected := some oY }, noEffects) :=
  selectOutbound_idempotent envW5 sW5 "y" oY [] rfl (by decide) (by decide) rfl

/-- C8 (amended): ProviderLocal construction succeeds exactly when the tag
and path are non-empty, the initial read and parse both succeed, and the
watcher can be constructed; a stat failure alone does not fail construction
(the timestamp is merely left unchanged). -/
theorem newProviderLocal_construction (env : LocalEnv) (tag path : String) :
    (∃ st, NewProviderLocal env tag path = .ok st) ↔
      (tag ≠ "" ∧ path ≠ "" ∧
        (∃ content opts, env.readResult = .ok content ∧
          env.parseResult content = .ok opts) ∧
        env.watcherResult = .ok ()) := by
  by_cases h1 : tag = ""
  · simp [NewProviderLocal, h1]
  · by_cases h2 : path = ""
    · simp [NewProviderLocal, h2, h1]
    · rcases hr : env.readResult with e | content
      · simp [NewProviderLocal, reloadFile, h1, h2, hr]
      · rcases hp : env.parseResult content with e | opts
        · simp [NewProviderLocal, reloadFile, h1, h2, hr, hp]
        · rcases hw : env.watcherResult with e | u
          · rcases hs : env.statResult with _ | tstamp <;>
              simp [NewProviderLocal, reloadFile, h1, h2, hr, hp, hw, hs]
          · rcases hs : env.statResult with _ | tstamp <;>
              simp [NewProviderLocal, reloadFile, h1, h2, hr, hp, hw, hs]

/-- C8 counterexample: the stat step fails (`statResult none`) while read,
parse and watcher construction succeed, and construction nevertheless
returns a provider — refuting "a stat failure fails construction". -/
theorem newProviderLocal_stat_cex :
    localEnvStat.statResult = none ∧
      NewProviderLocal localEnvStat "tagA" "pathA" =
        .ok { lastOutOpts := ["o1"], lastUpdated := 0 } :=
  ⟨rfl, rfl⟩

/-- C3: debounce rule of `UpdateOutbounds`. When another bound provider —
one bound under a different tag, visible in the manager's provider list —
reports an in-progress update, the call still replaces the candidate tag
list, map and cache with the rebuilt ones, but performs no reselection: the
active selection and all effect counters are untouched. Reselection is thus
only attempted when no other provider reports an update in progress. -/
theorem updateOutbounds_debounce (env : Env) (s : Selector) (tag qtag : String)
    (q : Provider) (r : FilterResult)
    (hbound : mapFind s.providers tag ≠ none)
    (hqbound : mapFind s.providers qtag = some (some q))
    (hqmgr : q ∈ env.mgrProviders)
    (hqne : q.ptag ≠ tag)
    (hqupd : q.isUpdating = true)
    (hfilter : filterOutbounds env s tag = .ok r) :
    UpdateOutbounds env s tag =
      .ok ({ s with
             tags := r.tags
             outbounds := r.outboundByTag
             outboundsCache := r.cache }, noEffects) := by
  have hany : env.mgrProviders.any (fun p => p.ptag != tag && p.isUpdating) = true :=
    List.any_eq_true.mpr ⟨q, hqmgr, by simp [hqupd, bne_iff_ne, hqne]⟩
  rcases hb : mapFind s.providers tag with _ | op
  · exact absurd hb hbound
  · simp [UpdateOutbounds, hb, hfilter, updateReselect, hany]

/-- C3 witness: provider "A" is updating while "B" is reconciled; the
candidate structures of `sW3` are replaced and the selection stays `oY`. -/
theorem updateOutbounds_debounce_wit :
    UpdateOutbounds envW3 sW3 "B" = .ok (sW3x, noEffects) :=
  updateOutbounds_debounce envW3 sW3 "B" "A" provAupd rW3
    (by decide) rfl (by decide) (by decide) rfl rfl

/-- C1 counterexample: under the debounce (provider "A" updating), the
candidate map of `sW3` is replaced by one containing only `oX` and `oZ`
while the active selection remains `oY` — the selection is no longer a
member of the candidate map, refuting the claimed invariant for
`UpdateOutbounds`. -/
theorem selector_selection_membership_cex :
    UpdateOutbounds envW3 sW3 "B" = .ok (sW3x, noEffects) ∧
    sW3x.selected = some oY ∧ ¬ inCandidates sW3x.outbounds oY := by
  refine ⟨rfl, rfl, ?_⟩
  intro hin
  obtain ⟨k, hk⟩ := hin
  have hmem := mapFind_mem hk
  simp [sW3x, rW3, oX, oY, oZ, Prod.ext_iff] at hmem

/-- C1 (amended): the selection-membership invariant holds after a
successful `Start`, is preserved by every `SelectOutbound` call, and is
restored by `UpdateOutbounds` whenever no other manager provider is
updating and the rebuild succeeded; the debounce path of `UpdateOutbounds`
is excluded, as the counterexample shows it can break membership. -/
theorem selector_selection_membership (env : Env) :
    (∀ s s1, Start env s = .ok s1 → selectionInv s1) ∧
    (∀ s tag, selectionInv s → selectionInv (SelectOutbound env s tag).2.1) ∧
    (∀ s tag s1 eff r, UpdateOutbounds env s tag = .ok (s1, eff) →
      env.mgrProviders.any (fun p => p.ptag != tag && p.isUpdating) = false →
      filterOutbounds env s tag = .ok r → selectionInv s1) := by
  refine ⟨?_, ?_, ?_⟩
  · intro s s1 h
    simp only [Start] at h
    split at h
    · simp at h
    · split at h
      · simp at h
      · rename_i r hfilter
        split at h
        · simp at h
        · rename_i od hsel
          simp only [Except.ok.injEq] at h
          subst h
          intro d hd
          have hod : od = some d := hd
          subst hod
          obtain ⟨k, hk⟩ := outboundSelect_mem _ _ _ hsel
          exact ⟨k, hk⟩
  · intro s tag hinv d hd
    rcases hfind : mapFind s.outbounds tag with _ | detour
    · simp only [SelectOutbound, hfind] at hd ⊢
      exact hinv d hd
    · simp only [SelectOutbound, hfind] at hd ⊢
      by_cases hsel : s.selected = some detour
      · rw [if_pos hsel] at hd ⊢
        have hdd : some detour = some d := hd
        cases hdd
        exact ⟨tag, hfind⟩
      · rw [if_neg hsel] at hd ⊢
        have hdd : some detour = some d := hd
        cases hdd
        exact ⟨tag, hfind⟩
  · intro s tag s1 eff r h hno hfilter
    rcases hb : mapFind s.providers tag with _ | op
    · simp [UpdateOutbounds, hb] at h
    · simp only [UpdateOutbounds, hb, hfilter, updateReselect, hno,
        Bool.false_eq_true, if_false] at h
      split at h
      · simp at h
      · rename_i msg hselerr
        obtain ⟨hdne, hdnone⟩ := outboundSelect_goErr_inv _ _ _ hselerr
        exact absurd hdnone (filterOutbounds_default_kept env s tag r hfilter hdne)
      · simp at h
      · rename_i detour hselok
        obtain ⟨k, hk⟩ := outboundSelect_mem _ _ _ hselok
        have hkt := filterOutbounds_keyTag env s tag r hfilter
        have hktag : k = detour.tag := hkt k detour hk
        subst hktag
        obtain ⟨eff2, hso⟩ := SelectOutbound_found env _ detour.tag detour hk
        rw [hso] at h
        simp only [Except.ok.injEq, Prod.mk.injEq] at h
        obtain ⟨hs1, heff⟩ := h
        subst hs1
        intro d hd
        have hdd : some detour = some d := hd
        cases hdd
        exact ⟨detour.tag, hk⟩

/-- C1 witness: the amended invariant holds for the concrete started
Selector `sStarted`. -/
theorem selector_selection_membership_wit : selectionInv sStarted :=
  (selector_selection_membership envW2).1 (NewSelector "sel" optsW) sStarted rfl

/-- C4: cache reuse during a rebuild. For a bound provider tag `p` other
than the just-changed tag with a non-nil cache entry, the provider is not
queried (`p ∉ fetched`), its cache entry is unchanged, and its cached
outbound list appears verbatim — identical elements, same order — as a
contiguous segment of the outbounds appended to the candidate structures;
the just-changed provider is re-fetched and its cache entry overwritten
with the freshly filtered list. -/
theorem filterOutbounds_cache_reuse (env : Env) (s : Selector)
    (changed p : String) (r : FilterResult)
    (hrun : filterOutbounds env s changed = .ok r)
    (hp : p ∈ s.providerTags)
    (hpne : p ≠ changed)
    (hcache : cacheGet s.outboundsCache p ≠ [])
    (hchanged : changed ∈ s.providerTags) :
    p ∉ r.fetched ∧
    cacheGet r.cache p = cacheGet s.outboundsCache p ∧
    (∃ pre suf, r.emitted = pre ++ cacheGet s.outboundsCache p ++ suf) ∧
    changed ∈ r.fetched ∧
    (∃ prov, mapFind s.providers changed = some (some prov) ∧
      cacheGet r.cache changed =
        survivors s.includeP s.excludeP prov.outbounds) := by
  obtain ⟨m0, r0, hseed, hguard, hphase, hcases⟩ :=
    filterOutbounds_ok_inv env s changed r hrun
  have hrc : r.cache = r0.cache ∧ r.fetched = r0.fetched ∧
      r.emitted = r0.emitted := by
    rcases hcases with ⟨_, rfl⟩ | ⟨_, detour, _, rfl⟩ <;> exact ⟨rfl, rfl, rfl⟩
  obtain ⟨hrcache, hrfetch, hremit⟩ := hrc
  have hstab := provPhase_stable s changed p hpne s.providerTags _ _ hphase hcache
  have hserve := provPhase_serves s changed p hpne s.providerTags _ _ hphase hp hcache
  have hchf := provPhase_changed_fetch s changed s.providerTags _ _ hphase hchanged
  refine ⟨?_, ?_, ?_, ?_, ?_⟩
  · rw [hrfetch]
    exact hstab.2 (List.not_mem_nil p)
  · rw [hrcache]
    exact hstab.1
  · rw [hremit]
    exact hserve
  · rw [hrfetch]
    exact hchf.1
  · rw [hrcache]
    exact hchf.2

/-- C4 witness: in the rebuild of `sW3` with "B" changed, "A" is served
from cache unchanged and only "B" is fetched and re-filtered. -/
theorem filterOutbounds_cache_reuse_wit :
    "A" ∉ rW3.fetched ∧
    cacheGet rW3.cache "A" = cacheGet sW3.outboundsCache "A" ∧
    (∃ pre suf, rW3.emitted = pre ++ cacheGet sW3.outboundsCache "A" ++ suf) ∧
    "B" ∈ rW3.fetched ∧
    (∃ prov, mapFind sW3.providers "B" = some (some prov) ∧
      cacheGet rW3.cache "B" =
        survivors sW3.includeP sW3.excludeP prov.outbounds) :=
  filterOutbounds_cache_reuse envW3 sW3 "B" "A" rW3 rfl (by decide)
    (by decide) (by decide) (by decide)

/-- C10: a bound provider whose cache entry is the nil list is never served
from cache: every rebuild queries it (`p ∈ fetched`), whatever the
just-changed tag is; and when its fetch again yields zero survivors, its
cache entry stays nil. -/
theorem filterOutbounds_empty_cache_refetch (env : Env) (s : Selector)
    (changed p : String) (r : FilterResult) (prov : Provider)
    (hrun : filterOutbounds env s changed = .ok r)
    (hp : p ∈ s.providerTags)
    (hcache : cacheGet s.outboundsCache p = [])
    (hprov : mapFind s.providers p = some (some prov)) :
    p ∈ r.fetched ∧
    (survivors s.includeP s.excludeP prov.outbounds = [] →
      cacheGet r.cache p = []) := by
  obtain ⟨m0, r0, hseed, hguard, hphase, hcases⟩ :=
    filterOutbounds_ok_inv env s changed r hrun
  have hrcf : r.cache = r0.cache ∧ r.fetched = r0.fetched := by
    rcases hcases with ⟨_, rfl⟩ | ⟨_, detour, _, rfl⟩ <;> exact ⟨rfl, rfl⟩
  obtain ⟨hrcache, hrfetch⟩ := hrcf
  constructor
  · rw [hrfetch]
    exact provPhase_fetch_of_nilCache s changed p s.providerTags _ _ hphase hp hcache
  · intro hsurv
    rw [hrcache]
    exact provPhase_nilCache_stays s changed p prov hprov hsurv
      s.providerTags _ _ hphase hcache

/-- C10 witness: provider "E" has a nil cache entry in `sW9`; the rebuild
fetches it, and with zero survivors its cache entry stays nil. -/
theorem filterOutbounds_empty_cache_refetch_wit :
    "E" ∈ rW9.fetched ∧
    (survivors sW9.includeP sW9.excludeP provE.outbounds = [] →
      cacheGet rW9.cache "E" = []) :=
  filterOutbounds_empty_cache_refetch envW9 sW9 "" "E" rW9 provE rfl
    (by decide) rfl rfl

/-- C9: when the rebuild yields zero candidates — no static dependencies,
no default, every bound provider with a nil cache entry and zero surviving
outbounds — `filterOutbounds` returns a candidate set of exactly the one
tag "Compatible", resolved from the outbound manager. -/
theorem filterOutbounds_compatible_fallback (env : Env) (s : Selector)
    (changed : String) (c : Outbound)
    (hdeps : s.dependencies = [])
    (hdef : s.defaultTag = "")
    (hzero : ∀ q ∈ s.providerTags, cacheGet s.outboundsCache q = [] ∧
      ∃ prov, mapFind s.providers q = some (some prov) ∧
        survivors s.includeP s.excludeP prov.outbounds = [])
    (hcompat : lookupOutbound env.outMgr "Compatible" = some c) :
    ∃ r, filterOutbounds env s changed = .ok r ∧ r.tags = ["Compatible"] ∧
      mapFind r.outboundByTag "Compatible" = some c := by
  have hctag : c.tag = "Compatible" := lookupOutbound_tag hcompat
  obtain ⟨r0, hphase, ht0, hm0⟩ :=
    provPhase_zero s changed s.providerTags ⟨[], [], s.outboundsCache, [], []⟩
      (fun q hq => hzero q hq)
  unfold filterOutbounds
  rw [hdeps]
  simp only [seedStatic, hdef, ne_eq, not_true_eq_false, false_and, if_false,
    hphase]
  simp only at ht0
  rw [if_pos ht0, hcompat, ht0]
  refine ⟨_, rfl, ?_, ?_⟩
  · simp [hctag]
  · rw [hctag, mapFind_insert_self]

/-- C9 witness: `sW9` is bound to the single provider "E" currently serving
zero outbounds; the served candidate set is exactly ["Compatible"]. -/
theorem filterOutbounds_compatible_fallback_wit :
    ∃ r, filterOutbounds envW9 sW9 "" = .ok r ∧ r.tags = ["Compatible"] ∧
      mapFind r.outboundByTag "Compatible" = some oCompat := by
  refine filterOutbounds_compatible_fallback envW9 sW9 "" oCompat rfl rfl ?_ rfl
  intro q hq
  have hqe : q = "E" := by simpa [sW9] using hq
  subst hqe
  exact ⟨rfl, provE, rfl, rfl⟩

theorem filterOutbounds_nilProvider (env : Env) (s : Selector)
    (changed t : String) (m0 : SMap Outbound)
    (hmem : t ∈ s.providerTags)
    (hcache : cacheGet s.outboundsCache t = [])
    (hnil : ∀ prov, mapFind s.providers t ≠ some (some prov))
    (hseed : seedStatic env.outMgr [] s.dependencies = .ok m0)
    (hdef : ¬(s.defaultTag ≠ "" ∧ mapFind m0 s.defaultTag = none)) :
    filterOutbounds env s changed = .error .nilPanic := by
  unfold filterOutbounds
  simp only [hseed]
  rw [if_neg hdef]
  rw [provPhase_nilProvider s changed t hnil s.providerTags _ hmem hcache]

/-- The provider map Start's binding loop builds for explicit provider
tags: each configured tag mapped to the manager's lookup result, a nil
provider stored for unresolved tags. -/
def boundProviders (env : Env) (opts : SelectorOptions) : SMap (Option Provider) :=
  opts.providers.foldl
    (fun m q => mapInsert m q (env.mgrProviders.find? (fun p => p.ptag == q))) []

/-- C7 (amended): an unresolved explicit provider tag at Start is neither
logged nor returned as an error by the binding loop — the constructed error
value is discarded and a nil provider is stored — but Start then fails with
a nil-dereference panic when `filterOutbounds` fetches that provider, so
the candidate set is never built. -/
theorem start_unresolved_provider_panics (env : Env) (stag : String)
    (opts : SelectorOptions) (t : String) (m0 : SMap Outbound)
    (huse : opts.useAllProviders = false)
    (hmem : t ∈ opts.providers)
    (hnf : env.mgrProviders.find? (fun p => p.ptag == t) = none)
    (hseed : seedStatic env.outMgr [] opts.outbounds = .ok m0)
    (hdef : ¬(opts.default ≠ "" ∧ mapFind m0 opts.default = none)) :
    Start env (NewSelector stag opts) = .error .nilPanic := by
  have hbind : bindProviders env (NewSelector stag opts) =
      { NewSelector stag opts with providers := boundProviders env opts } := by
    simp [bindProviders, NewSelector, huse, boundProviders]
  have hnil : ∀ prov, mapFind (boundProviders env opts) t ≠ some (some prov) := by
    intro prov hcon
    simp only [boundProviders] at hcon
    rw [foldBind_find (fun q => env.mgrProviders.find? (fun p => p.ptag == q))
      t opts.providers [] hmem] at hcon
    rw [hnf] at hcon
    simp at hcon
  have hfil : filterOutbounds env
      ({ NewSelector stag opts with providers := boundProviders env opts })
      "" = .error .nilPanic :=
    filterOutbounds_nilProvider env _ "" t m0 hmem rfl hnil hseed hdef
  have hlen : ¬((NewSelector stag opts).tags.length +
      (NewSelector stag opts).providerTags.length = 0) := by
    intro h0
    have h1 : opts.providers.length = 0 := by
      simpa [NewSelector] using Nat.eq_zero_of_add_eq_zero_left h0
    rw [List.length_eq_zero] at h1
    rw [h1] at hmem
    exact absurd hmem (List.not_mem_nil t)
  simp only [Start, hbind]
  rw [if_neg hlen]
  rw [hfil]

/-- C7 counterexample: with the single explicit provider tag "P" absent
from the manager, Start neither succeeds nor returns the "provider not
found" error — it panics on a nil provider dereference. -/
theorem start_unresolved_provider_cex :
    envC7.mgrProviders.find? (fun p => p.ptag == "P") = none ∧
    Start envC7 (NewSelector "sel" optsC7) = .error .nilPanic :=
  ⟨rfl, rfl⟩

/-- C7 witness for the amended theorem at the concrete configuration. -/
theorem start_unresolved_provider_panics_wit :
    Start envC7 (NewSelector "sel" optsC7) = .error .nilPanic :=
  start_unresolved_provider_panics envC7 "sel" optsC7 "P" [] rfl
    (by decide) rfl rfl (by decide)
